import Mathlib

/-!
Shallow embedding of the shield-of-athena grid ledger and viewport engine.

The ledger side embeds `src/src/state-manager.js` (class `StateManager`):
the sparse cell grid keyed by coordinates, the ownership map keyed by
transaction id, availability and expiry checks, single/batch square writes,
the owned-square recolor, the expiry sweep and `clearAll`.  Time is passed
explicitly as `now : Nat` (the code reads `Date.now()`).  JavaScript number
truthiness of `expiryTime` is modelled as `≠ 0`.

The viewport side embeds `src/src/grid-renderer.js` (class `GridRenderer`):
screen/grid coordinate transforms, the wheel zoom handler, the visible-range
culling of the render pass and the rectangular drag selection.  JavaScript
numbers are modelled as rationals.

The claim commit path embeds `DonationModal.handleSubmit` of
`src/src/leaderboard.js` together with `MockAPI.processDonation` of
`src/src/api-mock.js` (input validation) in `handleSubmit` below.
-/

namespace Shield

/-- One grid cell entry, as written by `StateManager.setSquare(s)`:
`{ color, email, x, y, timestamp, expiryTime }`. -/
structure Square where
  color : String
  email : String
  x : Int
  y : Int
  timestamp : Nat
  expiryTime : Nat
deriving Repr, DecidableEq

/-- One ownership record, as written by `StateManager.addOwnedSquares`:
`{ squares, timestamp, originalColor, url, username }`. -/
structure OwnershipRecord where
  squares : List (Int × Int)
  timestamp : Nat
  originalColor : String
  url : Option String
  username : String
deriving Repr, DecidableEq

/-- The `StateManager` state: configuration, the sparse grid (the JS object
keyed by the string `"x,y"`, here a function on the coordinate pair, `none`
meaning no entry), and the ownership object as an association list keyed by
transaction id. -/
structure SMState where
  gridSize : Nat
  lockDuration : Nat
  grid : Int × Int → Option Square
  ownership : List (String × OwnershipRecord)

/-- `StateManager.getSquare`: `this.grid[key] || null`. -/
def getSquare (s : SMState) (x y : Int) : Option Square :=
  s.grid (x, y)

/-- `StateManager.isOwnedSquare`: scans every transaction of `this.ownership`
for one whose `squares` list holds the coordinate. -/
def isOwnedSquare (s : SMState) (x y : Int) : Bool :=
  s.ownership.any fun t => t.2.squares.any fun c => c = (x, y)

/-- `StateManager.removeSquare`: `delete this.grid[key]`. -/
def removeSquare (s : SMState) (x y : Int) : SMState :=
  { s with grid := fun c => if c = (x, y) then none else s.grid c }

/-- The expiry test the code applies to one entry:
`square.expiryTime && square.expiryTime < now` (number truthiness = `≠ 0`). -/
def expiredAt (sq : Square) (now : Nat) : Bool :=
  decide (sq.expiryTime ≠ 0 ∧ sq.expiryTime < now)

/-- The same test on an optional entry (`none` is never expired). -/
def entryExpired (o : Option Square) (now : Nat) : Bool :=
  match o with
  | some sq => expiredAt sq now
  | none => false

/-- `StateManager.isSquareAvailable`: no entry means available; an expired
entry is removed (lazy purge) and reported available; a live entry is
unavailable.  Returns the flag and the state after the side effect. -/
def isSquareAvailable (s : SMState) (now : Nat) (x y : Int) : Bool × SMState :=
  match getSquare s x y with
  | none => (true, s)
  | some sq => if expiredAt sq now then (true, removeSquare s x y) else (false, s)

/-- The availability verdict alone (what `isSquareAvailable` returns). -/
def squareAvailableNow (s : SMState) (now : Nat) (x y : Int) : Bool :=
  match getSquare s x y with
  | none => true
  | some sq => expiredAt sq now

/-- `StateManager.cleanExpiredSquares`: deletes every entry whose
`expiryTime` is truthy and `< now`. -/
def cleanExpiredSquares (s : SMState) (now : Nat) : SMState :=
  { s with grid := fun c =>
      match s.grid c with
      | some sq => if expiredAt sq now then none else some sq
      | none => none }

/-- `StateManager.setSquare`: writes `{ ...data, x, y, timestamp: Date.now(),
expiryTime: Date.now() + this.lockDuration }` with `data = { color, email }`. -/
def setSquare (s : SMState) (now : Nat) (x y : Int) (color email : String) : SMState :=
  { s with grid := fun c =>
      if c = (x, y) then some ⟨color, email, x, y, now, now + s.lockDuration⟩
      else s.grid c }

/-- One element of the batch `StateManager.setSquares` receives. -/
structure SquareInput where
  x : Int
  y : Int
  color : String
  email : String
deriving Repr, DecidableEq

/-- `StateManager.setSquares`: writes every input square in order, each with
`timestamp: Date.now()` and `expiryTime: Date.now() + this.lockDuration`;
no availability or bounds check is performed. -/
def setSquares (s : SMState) (now : Nat) (inputs : List SquareInput) : SMState :=
  { s with grid := (inputs.foldl
      (fun g i => fun c =>
        if c = (i.x, i.y) then some ⟨i.color, i.email, i.x, i.y, now, now + s.lockDuration⟩
        else g c)
      s.grid) }

/-- `StateManager.updateSquareColor`: fails (false) unless `isOwnedSquare`
holds and an entry exists; otherwise overwrites the entry with
`{ ...square, color: newColor }`.  Returns the flag and resulting state. -/
def updateSquareColor (s : SMState) (x y : Int) (newColor : String) : Bool × SMState :=
  if isOwnedSquare s x y = false then (false, s)
  else
    match getSquare s x y with
    | none => (false, s)
    | some sq =>
        (true,
          { s with grid := fun c =>
              if c = (x, y) then some { sq with color := newColor } else s.grid c })

/-- `StateManager.addOwnedSquares`: `this.ownership[transactionId] = {
squares: squares.map(s => ({x, y})), timestamp: Date.now(), originalColor,
url, username }` (an existing entry under the same key is replaced). -/
def addOwnedSquares (s : SMState) (now : Nat) (txid : String)
    (squares : List (Int × Int)) (originalColor : String)
    (url : Option String) (username : String) : SMState :=
  { s with ownership :=
      (txid, ⟨squares.map fun c => (c.1, c.2), now, originalColor, url, username⟩)
        :: s.ownership.filter fun t => t.1 ≠ txid }

/-- `StateManager.clearAll`: `this.grid = {}` (ownership untouched). -/
def clearAll (s : SMState) : SMState :=
  { s with grid := fun _ => none }

/-- The email test of `MockAPI.isValidEmail`, the regular expression
`^[^\s@]+@[^\s@]+\.[^\s@]+$`: the address is `a ++ "@" ++ b ++ "." ++ c`
with `a`, `b`, `c` nonempty and free of whitespace and `@`. -/
def emailChar (c : Char) : Bool :=
  !(c = '@' || c.isWhitespace)

/-- Decidable semantics of the regular expression above. -/
def isValidEmail (email : String) : Bool :=
  let cs := email.toList
  let a := cs.takeWhile fun c => c ≠ '@'
  match cs.dropWhile fun c => c ≠ '@' with
  | [] => false
  | _ :: rest =>
      !a.isEmpty && a.all emailChar && !rest.isEmpty && rest.all emailChar &&
        ((rest.drop 1).dropLast.any fun c => c = '.')

/-- The claim commit path, `DonationModal.handleSubmit` of
`src/src/leaderboard.js`: `MockAPI.processDonation` validates the email, the
non-emptiness of the square list and the color; a validation failure is
surfaced as an error with no state change (`none` here).  On success the
squares are written through `setSquares` (each input carrying the chosen
color and email) and one ownership record is added under the issued
transaction id with the chosen color as `originalColor`, `url = null` and
the default username.  Availability of the requested cells is not
re-checked anywhere on this path. -/
def handleSubmit (s : SMState) (now : Nat) (selected : List (Int × Int))
    (color email txid : String) : Option SMState :=
  if !isValidEmail email then none
  else if selected.isEmpty then none
  else if color = "" then none
  else
    some (addOwnedSquares
      (setSquares s now (selected.map fun c => ⟨c.1, c.2, color, email⟩))
      now txid selected color none "Anonymous")

/-! ### Viewport engine (`GridRenderer`) -/

/-- `this.squareSize = 10`. -/
def squareSize : ℚ := 10

/-- `this.minScale = 0.1`. -/
def minScale : ℚ := 1 / 10

/-- `this.maxScale = 10`. -/
def maxScale : ℚ := 10

/-- The camera state of `GridRenderer`: `offsetX`, `offsetY`, `scale`. -/
structure Viewport where
  offsetX : ℚ
  offsetY : ℚ
  scale : ℚ
deriving Repr, DecidableEq

/-- `GridRenderer.screenToGrid`: floor of the affine inverse transform. -/
def screenToGrid (v : Viewport) (sx sy : ℚ) : Int × Int :=
  (⌊(sx - v.offsetX) / (squareSize * v.scale)⌋,
   ⌊(sy - v.offsetY) / (squareSize * v.scale)⌋)

/-- `GridRenderer.gridToScreen`: the forward affine transform. -/
def gridToScreen (v : Viewport) (gx gy : Int) : ℚ × ℚ :=
  ((gx : ℚ) * squareSize * v.scale + v.offsetX,
   (gy : ℚ) * squareSize * v.scale + v.offsetY)

/-- `GridRenderer.isValidGridCoord`. -/
def isValidGridCoord (gridSize : Nat) (x y : Int) : Bool :=
  decide (0 ≤ x ∧ x < gridSize ∧ 0 ≤ y ∧ y < gridSize)

/-- The clamped scale `GridRenderer.handleWheel` computes:
`Math.max(this.minScale, Math.min(this.maxScale, this.scale * zoomFactor))`
with `zoomFactor = deltaY > 0 ? 0.9 : 1.1`. -/
def wheelNewScale (v : Viewport) (deltaYPos : Bool) : ℚ :=
  max minScale (min maxScale (v.scale * (if deltaYPos then 9 / 10 else 11 / 10)))

/-- `GridRenderer.handleWheel`: when the clamped scale differs, the grid
coordinate under the cursor is recomputed, the scale updated, and the offset
shifted by the cursor displacement of that grid point. -/
def handleWheel (v : Viewport) (mouseX mouseY : ℚ) (deltaYPos : Bool) : Viewport :=
  if wheelNewScale v deltaYPos ≠ v.scale then
    { offsetX := v.offsetX + (mouseX -
        (gridToScreen { v with scale := wheelNewScale v deltaYPos }
          (screenToGrid v mouseX mouseY).1 (screenToGrid v mouseX mouseY).2).1),
      offsetY := v.offsetY + (mouseY -
        (gridToScreen { v with scale := wheelNewScale v deltaYPos }
          (screenToGrid v mouseX mouseY).1 (screenToGrid v mouseX mouseY).2).2),
      scale := wheelNewScale v deltaYPos }
  else v

/-- The half-open integer interval `[lo, hi)` as a list. -/
def intRange (lo hi : Int) : List Int :=
  (List.range (hi - lo).toNat).map fun i : Nat => lo + (i : Int)

/-- All pairs with first component from `xs`, second from `ys`, in the
nested-loop order of the render pass. -/
def cellProd (xs ys : List Int) : List (Int × Int) :=
  xs.flatMap fun x => ys.map fun y => (x, y)

/-- The visible cell range `GridRenderer.render` computes:
`(startX, startY, endX, endY)` with the start coordinates clamped below by 0
and the end coordinates clamped above by `gridSize`. -/
def visibleRange (v : Viewport) (gridSize : Nat) (width height : ℚ) :
    Int × Int × Int × Int :=
  (max 0 ⌊(-v.offsetX) / (squareSize * v.scale)⌋,
   max 0 ⌊(-v.offsetY) / (squareSize * v.scale)⌋,
   min gridSize ⌈(width - v.offsetX) / (squareSize * v.scale)⌉,
   min gridSize ⌈(height - v.offsetY) / (squareSize * v.scale)⌉)

/-- The cells the render pass enumerates: `x` from `startX` (inclusive) to
`endX` (exclusive), `y` from `startY` to `endY`. -/
def drawnCells (v : Viewport) (gridSize : Nat) (width height : ℚ) :
    List (Int × Int) :=
  let r := visibleRange v gridSize width height
  cellProd (intRange r.1 r.2.2.1) (intRange r.2.1 r.2.2.2)

/-- The axis-aligned box of cells between two drag corners, inclusive on all
sides, in the loop order of `GridRenderer.updateDragSelection`. -/
def boxCells (a b : Int × Int) : List (Int × Int) :=
  cellProd (intRange (min a.1 b.1) (max a.1 b.1 + 1))
    (intRange (min a.2 b.2) (max a.2 b.2 + 1))

/-- `GridRenderer.updateDragSelection`: the previous selection is cleared
(the `prevSelection` argument is discarded), then every cell of the box that
is in bounds and available is added; the availability query is the
stateful `isSquareAvailable` (it purges expired entries as it goes), so the
state is threaded through the loop.  Returns the new selection and the
state after the purges. -/
def updateDragSelection (s : SMState) (now : Nat)
    (_prevSelection : List (Int × Int)) (start cur : Int × Int) :
    List (Int × Int) × SMState :=
  (boxCells start cur).foldl
    (fun acc c =>
      if isValidGridCoord s.gridSize c.1 c.2 then
        (if (isSquareAvailable acc.2 now c.1 c.2).1 then acc.1 ++ [c] else acc.1,
         (isSquareAvailable acc.2 now c.1 c.2).2)
      else acc)
    ([], s)

/-! ### Concrete states used by counterexamples and witnesses -/

/-- A ledger (grid size 10, lock 1000) holding one live cell at `(0, 0)`
claimed at time 0 by transaction `T1`. -/
def exClaimedState : SMState where
  gridSize := 10
  lockDuration := 1000
  grid := fun c => if c = (0, 0) then some ⟨"#FF0000", "d@e.f", 0, 0, 0, 1000⟩ else none
  ownership := [("T1", ⟨[(0, 0)], 0, "#FF0000", none, "Anonymous"⟩)]

/-- A ledger holding one cell at `(0, 0)` whose lock expired at time 100,
still present in the grid (not yet purged), owned by transaction `T1`. -/
def exExpiredState : SMState where
  gridSize := 10
  lockDuration := 100
  grid := fun c => if c = (0, 0) then some ⟨"#FF0000", "d@e.f", 0, 0, 0, 100⟩ else none
  ownership := [("T1", ⟨[(0, 0)], 0, "#FF0000", none, "Anonymous"⟩)]

/-- An empty ledger with grid size 10. -/
def exEmptyState : SMState where
  gridSize := 10
  lockDuration := 1000
  grid := fun _ => none
  ownership := []

/-! ### Helper lemmas -/

/-- The flag `isSquareAvailable` returns is the pure availability verdict. -/
theorem isSquareAvailable_fst (s : SMState) (now : Nat) (x y : Int) :
    (isSquareAvailable s now x y).1 = squareAvailableNow s now x y := by
  unfold isSquareAvailable squareAvailableNow
  cases getSquare s x y with
  | none => rfl
  | some sq => by_cases h : expiredAt sq now <;> simp [h]

/-- The lazy purge of `isSquareAvailable` never changes any cell's
availability verdict: it only deletes entries that already count as
available. -/
theorem isSquareAvailable_snd_avail (s : SMState) (now : Nat) (x y a b : Int) :
    squareAvailableNow (isSquareAvailable s now x y).2 now a b =
      squareAvailableNow s now a b := by
  unfold isSquareAvailable
  cases hg : getSquare s x y with
  | none => rfl
  | some sq =>
    by_cases h : expiredAt sq now
    · simp only [h, if_true]
      unfold squareAvailableNow getSquare removeSquare
      unfold getSquare at hg
      by_cases hab : ((a, b) : Int × Int) = (x, y)
      · simp [hab, hg, h]
      · simp [hab]
    · simp [h]

/-- Membership in the half-open integer interval. -/
theorem mem_intRange (a lo hi : Int) : a ∈ intRange lo hi ↔ lo ≤ a ∧ a < hi := by
  unfold intRange
  constructor
  · intro h
    rcases List.mem_map.mp h with ⟨i, hir, hlo⟩
    have hlt := List.mem_range.mp hir
    omega
  · intro hb
    apply List.mem_map.mpr
    refine ⟨(a - lo).toNat, List.mem_range.mpr ?_, ?_⟩
    · omega
    · omega

/-- Membership in the nested-loop pair enumeration. -/
theorem mem_cellProd (c : Int × Int) (xs ys : List Int) :
    c ∈ cellProd xs ys ↔ c.1 ∈ xs ∧ c.2 ∈ ys := by
  unfold cellProd
  cases c with
  | mk a b =>
    simp only [List.mem_flatMap, List.mem_map, Prod.mk.injEq]
    constructor
    · rintro ⟨x, hx, y, hy, rfl, rfl⟩
      exact ⟨hx, hy⟩
    · rintro ⟨ha, hb⟩
      exact ⟨a, ha, b, hb, rfl, rfl⟩

/-- The write loop of `setSquares`, for a batch sharing one color and email
(the shape `handleSubmit` always passes): the resulting grid holds the fresh
record at every requested coordinate — with no availability or bounds
filter — and is untouched elsewhere. -/
theorem foldl_uniform_write (now k : Nat) (color email : String)
    (L : List (Int × Int)) (g : Int × Int → Option Square) (c : Int × Int) :
    (L.map fun p => (⟨p.1, p.2, color, email⟩ : SquareInput)).foldl
        (fun g i => fun c =>
          if c = (i.x, i.y) then some ⟨i.color, i.email, i.x, i.y, now, k⟩ else g c)
        g c =
      if c ∈ L then some ⟨color, email, c.1, c.2, now, k⟩ else g c := by
  induction L generalizing g with
  | nil => simp
  | cons a L ih =>
    simp only [List.map_cons, List.foldl_cons]
    rw [ih]
    by_cases hc : c ∈ L
    · simp [hc]
    · by_cases hca : c = a
      · subst hca
        simp [hc]
      · simp [hc, hca, Prod.mk.eta]

/-- `setSquares` on a uniform batch: grid contents. -/
theorem setSquares_grid_uniform (s : SMState) (now : Nat)
    (L : List (Int × Int)) (color email : String) (c : Int × Int) :
    (setSquares s now (L.map fun p => ⟨p.1, p.2, color, email⟩)).grid c =
      if c ∈ L then some ⟨color, email, c.1, c.2, now, now + s.lockDuration⟩
      else s.grid c :=
  foldl_uniform_write now (now + s.lockDuration) color email L s.grid c

/-! ### Claim theorems -/

/-- C3 counterexample: at the precise instant `now = expiresAt` (here both
100) the cell is NOT yet treated as expired — `isSquareAvailable` returns
false and the sweep keeps the entry — refuting the claimed `now ≥ expiresAt`
threshold at an explicit input. -/
theorem expiry_at_exact_instant_cex :
    (isSquareAvailable exExpiredState 100 0 0).1 = false ∧
    (cleanExpiredSquares exExpiredState 100).grid (0, 0) =
      some ⟨"#FF0000", "d@e.f", 0, 0, 0, 100⟩ := by
  constructor
  · decide
  · decide

/-- C3 amended: a cell entry is treated as expired exactly when its
`expiresAt` is nonzero and strictly less than `now` (`now > expiresAt`, not
`now ≥ expiresAt`): `isSquareAvailable` reports available exactly for a
missing or strictly-expired entry, purges exactly a strictly-expired entry
and touches nothing else, and the sweep removes exactly the entries with
`expiresAt < now`. -/
theorem expiry_strict_threshold (s : SMState) (now : Nat) (x y : Int) (c : Int × Int) :
    ((isSquareAvailable s now x y).1 = true ↔
      getSquare s x y = none ∨
        ∃ sq, getSquare s x y = some sq ∧ sq.expiryTime ≠ 0 ∧ sq.expiryTime < now) ∧
    ((isSquareAvailable s now x y).2.grid c =
      if c = (x, y) ∧ entryExpired (getSquare s x y) now = true then none
      else s.grid c) ∧
    ((cleanExpiredSquares s now).grid c =
      if entryExpired (s.grid c) now = true then none else s.grid c) := by
  refine ⟨?_, ?_, ?_⟩
  · rw [isSquareAvailable_fst]
    unfold squareAvailableNow
    cases hg : getSquare s x y with
    | none => simp
    | some sq => simp [hg, expiredAt]
  · unfold isSquareAvailable
    cases hg : getSquare s x y with
    | none => simp [hg, entryExpired]
    | some sq =>
      by_cases h : expiredAt sq now
      · simp only [hg, h, if_true, entryExpired]
        unfold removeSquare
        by_cases hc : c = (x, y) <;> simp [hc]
      · simp [hg, h, entryExpired]
  · unfold cleanExpiredSquares
    cases hc : s.grid c with
    | none => simp [hc, entryExpired]
    | some sq =>
      by_cases h : expiredAt sq now <;> simp [hc, h, entryExpired]

/-- C2 counterexample: a cell whose lock expired at time 100 is logically
available at time 200 (not live), yet `updateSquareColor` — which never
consults expiry — still succeeds for the owning session, refuting
"succeeds only for live, non-expired cells" at an explicit input. -/
theorem recolor_expired_cell_cex :
    squareAvailableNow exExpiredState 200 0 0 = true ∧
    expiredAt ⟨"#FF0000", "d@e.f", 0, 0, 0, 100⟩ 200 = true ∧
    (updateSquareColor exExpiredState 0 0 "#00FF00").1 = true := by
  refine ⟨?_, ?_, ?_⟩ <;> decide

/-- C2 amended: `updateSquareColor` returns true exactly when the coordinate
appears in some ownership record of the requesting session's ownership map
and a grid entry exists there — expiry is never consulted, so the recolor
also succeeds on an expired-but-unpurged entry; on failure the state is
unchanged.  In particular a session whose ownership map holds no record
covering the coordinate (any other transaction's session) always gets
false. -/
theorem recolor_owner_entry_iff (s : SMState) (x y : Int) (col : String) :
    ((updateSquareColor s x y col).1 = true ↔
      isOwnedSquare s x y = true ∧ getSquare s x y ≠ none) ∧
    ((updateSquareColor s x y col).1 = false →
      (updateSquareColor s x y col).2 = s) := by
  unfold updateSquareColor
  cases h : isOwnedSquare s x y <;> cases hg : getSquare s x y <;> simp [h, hg]

/-- C10: `clearAll` empties the grid — afterwards every `getSquare` is
`null` and every `isSquareAvailable` is true — while the ownership map is
untouched, so `isOwnedSquare` answers exactly as before. -/
theorem clearAll_grid_only (s : SMState) (now : Nat) (x y : Int) :
    getSquare (clearAll s) x y = none ∧
    (isSquareAvailable (clearAll s) now x y).1 = true ∧
    (clearAll s).ownership = s.ownership ∧
    isOwnedSquare (clearAll s) x y = isOwnedSquare s x y := by
  refine ⟨rfl, ?_, rfl, rfl⟩
  rw [isSquareAvailable_fst]
  rfl

/-- C7 counterexample: with grid size 10 the coordinate `(10, 0)` is out of
bounds, yet `setSquare` creates an entry for it — no rejection happens at
the `StateManager` boundary, refuting the claim at an explicit input. -/
theorem oob_write_accepted_cex :
    isValidGridCoord 10 10 0 = false ∧
    exEmptyState.gridSize = 10 ∧
    (setSquare exEmptyState 0 10 0 "#FF0000" "a@b.c").grid (10, 0) =
      some ⟨"#FF0000", "a@b.c", 10, 0, 0, 1000⟩ := by
  refine ⟨?_, ?_, ?_⟩ <;> decide

/-- C7 amended: the `StateManager` mutation entry points perform no bounds
check at all: `setSquare` and `setSquares` write an entry at any integer
coordinate, in or out of `[0, gridSize)`, and `updateSquareColor`'s outcome
is independent of `gridSize`; coordinate filtering happens only in the
interaction layer (`GridRenderer.isValidGridCoord`) before the ledger is
called. -/
theorem ledger_mutations_unbounded (s : SMState) (now : Nat) (x y : Int)
    (color email : String) (L : List (Int × Int)) (c : Int × Int) (g2 : Nat) :
    ((setSquare s now x y color email).grid c =
      if c = (x, y) then some ⟨color, email, x, y, now, now + s.lockDuration⟩
      else s.grid c) ∧
    ((setSquares s now (L.map fun p => ⟨p.1, p.2, color, email⟩)).grid c =
      if c ∈ L then some ⟨color, email, c.1, c.2, now, now + s.lockDuration⟩
      else s.grid c) ∧
    ((updateSquareColor { s with gridSize := g2 } x y color).1 =
      (updateSquareColor s x y color).1) := by
  refine ⟨rfl, setSquares_grid_uniform s now L color email c, ?_⟩
  unfold updateSquareColor
  cases h : isOwnedSquare s x y with
  | false =>
    have h2 : isOwnedSquare { s with gridSize := g2 } x y = false := h
    simp [h, h2]
  | true =>
    have h2 : isOwnedSquare { s with gridSize := g2 } x y = true := h
    cases hg : getSquare s x y with
    | none =>
      have hg2 : getSquare { s with gridSize := g2 } x y = none := hg
      simp [h, h2, hg, hg2]
    | some sq =>
      have hg2 : getSquare { s with gridSize := g2 } x y = some sq := hg
      simp [h, h2, hg, hg2]

/-- C9: a successful `updateSquareColor` of `(x, y)` rewrites only that
entry's `color` — its email, coordinates, timestamp and `expiryTime` are
kept — and every other grid entry, the ownership map and the configuration
are unchanged. -/
theorem recolor_changes_only_color (s : SMState) (x y : Int) (col : String)
    (h : (updateSquareColor s x y col).1 = true) :
    (∃ sq, getSquare s x y = some sq ∧
      (updateSquareColor s x y col).2.grid (x, y) =
        some ⟨col, sq.email, sq.x, sq.y, sq.timestamp, sq.expiryTime⟩) ∧
    (∀ c, c ≠ (x, y) → (updateSquareColor s x y col).2.grid c = s.grid c) ∧
    (updateSquareColor s x y col).2.ownership = s.ownership ∧
    (updateSquareColor s x y col).2.gridSize = s.gridSize ∧
    (updateSquareColor s x y col).2.lockDuration = s.lockDuration := by
  unfold updateSquareColor at h ⊢
  cases ho : isOwnedSquare s x y with
  | false => rw [ho] at h; simp at h
  | true =>
    cases hg : getSquare s x y with
    | none => rw [ho, hg] at h; simp at h
    | some sq =>
      refine ⟨⟨sq, rfl, by simp⟩, ?_, by simp, by simp, by simp⟩
      intro c hc
      simp [hc]

/-- C9 witness: the frame property applied to the concrete owned state. -/
theorem recolor_changes_only_color_witness :
    (updateSquareColor exExpiredState 0 0 "#00FF00").1 = true ∧
    ((∃ sq, getSquare exExpiredState 0 0 = some sq ∧
      (updateSquareColor exExpiredState 0 0 "#00FF00").2.grid (0, 0) =
        some ⟨"#00FF00", sq.email, sq.x, sq.y, sq.timestamp, sq.expiryTime⟩) ∧
    (∀ c, c ≠ ((0 : Int), (0 : Int)) →
      (updateSquareColor exExpiredState 0 0 "#00FF00").2.grid c =
        exExpiredState.grid c) ∧
    (updateSquareColor exExpiredState 0 0 "#00FF00").2.ownership =
      exExpiredState.ownership ∧
    (updateSquareColor exExpiredState 0 0 "#00FF00").2.gridSize =
      exExpiredState.gridSize ∧
    (updateSquareColor exExpiredState 0 0 "#00FF00").2.lockDuration =
      exExpiredState.lockDuration) :=
  ⟨by decide, recolor_changes_only_color exExpiredState 0 0 "#00FF00" (by decide)⟩

/-- C1 counterexample: the cell `(0, 0)` is unavailable at commit time
(claimed and unexpired), yet the claim submitted for it by another
transaction succeeds and overwrites the entry — the commit path never
re-checks availability — refuting the claimed atomic failure at an
explicit input. -/
theorem claim_unavailable_cell_cex :
    squareAvailableNow exClaimedState 500 0 0 = false ∧
    (handleSubmit exClaimedState 500 [(0, 0)] "#00FF00" "a@b.c" "T2").map
        (fun s2 => (s2.grid (0, 0)).map Square.color) = some (some "#00FF00") := by
  constructor
  · decide
  · decide

/-- C1 amended: the claim operation fails — affecting zero cells — exactly
when the input is invalid (bad email, empty cell list, or empty color);
cell availability is NOT re-checked at commit time, so on any valid input
the claim succeeds unconditionally, writing one fresh Cell entry per
requested coordinate with `claimedAt = now` and
`expiresAt = now + lockDuration` (overwriting any existing entry, available
or not) and adding exactly one Ownership Record grouping the batch. -/
theorem claim_no_availability_recheck (s : SMState) (now : Nat)
    (selected : List (Int × Int)) (color email txid : String) :
    (handleSubmit s now selected color email txid = none ↔
      isValidEmail email = false ∨ selected = [] ∨ color = "") ∧
    (∀ s2, handleSubmit s now selected color email txid = some s2 →
      (∀ c, s2.grid c =
        if c ∈ selected then some ⟨color, email, c.1, c.2, now, now + s.lockDuration⟩
        else s.grid c) ∧
      s2.ownership =
        (txid, ⟨selected, now, color, none, "Anonymous"⟩) ::
          (s.ownership.filter fun t => t.1 ≠ txid) ∧
      s2.gridSize = s.gridSize ∧ s2.lockDuration = s.lockDuration) := by
  unfold handleSubmit
  cases he : isValidEmail email with
  | false => simp [he]
  | true =>
    by_cases hs : selected.isEmpty
    · have hsel : selected = [] := List.isEmpty_iff.mp hs
      simp [he, hs, hsel]
    · have hne : selected ≠ [] := fun h => hs (by simp [h])
      by_cases hcol : color = ""
      · simp [he, hs, hne, hcol]
      · simp only [he, Bool.not_true, Bool.false_eq_true, if_false, hs, hcol,
          if_neg, reduceCtorEq]
        constructor
        · simp [hne, hcol]
        · intro s2 h2
          rw [Option.some.injEq] at h2
          subst h2
          refine ⟨?_, ?_, rfl, rfl⟩
          · intro c
            exact setSquares_grid_uniform s now selected color email c
          · show (txid, OwnershipRecord.mk (selected.map fun c => (c.1, c.2)) now color none "Anonymous") ::
              ((setSquares s now (selected.map fun c => ⟨c.1, c.2, color, email⟩)).ownership.filter
                fun t => t.1 ≠ txid) =
              (txid, ⟨selected, now, color, none, "Anonymous"⟩) ::
                (s.ownership.filter fun t => t.1 ≠ txid)
            simp [setSquares]

/-- C4: for every camera state with scale within `[minScale, maxScale]` and
every in-bounds integer grid coordinate, converting to screen coordinates
and back yields the same pair: `screenToGrid (gridToScreen x y) = (x, y)`. -/
theorem coord_round_trip (v : Viewport) (gridSize : Nat) (x y : Int)
    (hs1 : minScale ≤ v.scale) (hs2 : v.scale ≤ maxScale)
    (hx0 : 0 ≤ x) (hx1 : x < gridSize) (hy0 : 0 ≤ y) (hy1 : y < gridSize) :
    screenToGrid v (gridToScreen v x y).1 (gridToScreen v x y).2 = (x, y) := by
  unfold minScale at hs1
  have h1 : (0 : ℚ) < squareSize * v.scale := by
    unfold squareSize
    linarith
  have hne : squareSize * v.scale ≠ 0 := ne_of_gt h1
  unfold screenToGrid gridToScreen
  simp only
  have e1 : ((x : ℚ) * squareSize * v.scale + v.offsetX - v.offsetX) /
      (squareSize * v.scale) = (x : ℚ) := by
    field_simp
    ring
  have e2 : ((y : ℚ) * squareSize * v.scale + v.offsetY - v.offsetY) /
      (squareSize * v.scale) = (y : ℚ) := by
    field_simp
    ring
  rw [e1, e2, Int.floor_intCast, Int.floor_intCast]

/-- C4 witness: the round trip at a concrete camera and coordinate. -/
theorem coord_round_trip_witness :
    (minScale ≤ (Viewport.mk 2 5 1).scale ∧ (Viewport.mk 2 5 1).scale ≤ maxScale ∧
      (0 : Int) ≤ 3 ∧ (3 : Int) < (10 : Nat) ∧ (0 : Int) ≤ 4 ∧ (4 : Int) < (10 : Nat)) ∧
    screenToGrid ⟨2, 5, 1⟩ (gridToScreen ⟨2, 5, 1⟩ 3 4).1 (gridToScreen ⟨2, 5, 1⟩ 3 4).2 =
      (3, 4) :=
  ⟨⟨by norm_num [minScale], by norm_num [maxScale], by norm_num, by norm_num,
     by norm_num, by norm_num⟩,
   coord_round_trip ⟨2, 5, 1⟩ 10 3 4 (by norm_num [minScale]) (by norm_num [maxScale])
     (by norm_num) (by norm_num) (by norm_num) (by norm_num)⟩

/-- C5: whenever the clamped new scale of a wheel-zoom step differs from the
old one, the grid coordinate under the cursor is preserved exactly (hence in
particular within one cell of floor rounding): `screenToGrid` at the mouse
point is unchanged by `handleWheel`. -/
theorem anchor_preserving_zoom (v : Viewport) (mx my : ℚ) (d : Bool)
    (h : wheelNewScale v d ≠ v.scale) :
    screenToGrid (handleWheel v mx my d) mx my = screenToGrid v mx my := by
  have hmin : minScale ≤ wheelNewScale v d := le_max_left _ _
  unfold minScale at hmin
  have hne : squareSize * wheelNewScale v d ≠ 0 := by
    unfold squareSize
    intro hz
    nlinarith
  rw [handleWheel, if_pos h]
  unfold screenToGrid gridToScreen
  simp only
  have e1 : mx - (v.offsetX + (mx -
      ((⌊(mx - v.offsetX) / (squareSize * v.scale)⌋ : ℚ) * squareSize *
        wheelNewScale v d + v.offsetX))) =
      (⌊(mx - v.offsetX) / (squareSize * v.scale)⌋ : ℚ) *
        (squareSize * wheelNewScale v d) := by
    ring
  have e2 : my - (v.offsetY + (my -
      ((⌊(my - v.offsetY) / (squareSize * v.scale)⌋ : ℚ) * squareSize *
        wheelNewScale v d + v.offsetY))) =
      (⌊(my - v.offsetY) / (squareSize * v.scale)⌋ : ℚ) *
        (squareSize * wheelNewScale v d) := by
    ring
  rw [e1, e2, mul_div_cancel_right₀ _ hne, mul_div_cancel_right₀ _ hne,
    Int.floor_intCast, Int.floor_intCast]

/-- C5 witness: a concrete wheel-zoom step (zoom in from scale 1) whose
clamped scale differs, with the anchor grid coordinate preserved. -/
theorem anchor_preserving_zoom_witness :
    wheelNewScale ⟨0, 0, 1⟩ false ≠ (Viewport.mk 0 0 1).scale ∧
    screenToGrid (handleWheel ⟨0, 0, 1⟩ 5 7 false) 5 7 = screenToGrid ⟨0, 0, 1⟩ 5 7 :=
  ⟨by norm_num [wheelNewScale, minScale, maxScale],
   anchor_preserving_zoom ⟨0, 0, 1⟩ 5 7 false
     (by norm_num [wheelNewScale, minScale, maxScale])⟩

/-- C6: for every camera state and canvas size, the visible range of the
render pass satisfies `0 ≤ startX, startY` and `endX, endY ≤ gridSize`, and
every cell the pass enumerates lies within the returned range and hence
within `[0, gridSize)` on both axes. -/
theorem culling_in_bounds (v : Viewport) (gridSize : Nat) (w h : ℚ) :
    0 ≤ (visibleRange v gridSize w h).1 ∧
    0 ≤ (visibleRange v gridSize w h).2.1 ∧
    (visibleRange v gridSize w h).2.2.1 ≤ gridSize ∧
    (visibleRange v gridSize w h).2.2.2 ≤ gridSize ∧
    ∀ c ∈ drawnCells v gridSize w h,
      ((visibleRange v gridSize w h).1 ≤ c.1 ∧
        c.1 < (visibleRange v gridSize w h).2.2.1) ∧
      ((visibleRange v gridSize w h).2.1 ≤ c.2 ∧
        c.2 < (visibleRange v gridSize w h).2.2.2) ∧
      0 ≤ c.1 ∧ c.1 < gridSize ∧ 0 ≤ c.2 ∧ c.2 < gridSize := by
  refine ⟨le_max_left 0 _, le_max_left 0 _, min_le_left _ _, min_le_left _ _, ?_⟩
  intro c hc
  unfold drawnCells at hc
  rw [mem_cellProd, mem_intRange, mem_intRange] at hc
  have e1 : (0 : Int) ≤ (visibleRange v gridSize w h).1 := le_max_left 0 _
  have e2 : (0 : Int) ≤ (visibleRange v gridSize w h).2.1 := le_max_left 0 _
  have e3 : (visibleRange v gridSize w h).2.2.1 ≤ gridSize := min_le_left _ _
  have e4 : (visibleRange v gridSize w h).2.2.2 ≤ gridSize := min_le_left _ _
  exact ⟨⟨hc.1.1, hc.1.2⟩, ⟨hc.2.1, hc.2.2⟩, by omega, by omega, by omega, by omega⟩

/-- The selection loop of `updateDragSelection`: threading the (purging)
availability query through the fold never changes any cell's availability
verdict, so membership in the accumulated selection is exactly "already
accumulated, or in the remaining cells, in bounds and available". -/
theorem dragFold_mem (s : SMState) (now : Nat) (gs : Nat) (cq : Int × Int)
    (L : List (Int × Int)) :
    ∀ (acc : List (Int × Int)) (st : SMState),
      (∀ a b : Int, squareAvailableNow st now a b = squareAvailableNow s now a b) →
      (cq ∈ (L.foldl
        (fun acc c =>
          if isValidGridCoord gs c.1 c.2 then
            (if (isSquareAvailable acc.2 now c.1 c.2).1 then acc.1 ++ [c] else acc.1,
             (isSquareAvailable acc.2 now c.1 c.2).2)
          else acc)
        (acc, st)).1 ↔
        cq ∈ acc ∨ (cq ∈ L ∧ isValidGridCoord gs cq.1 cq.2 = true ∧
          squareAvailableNow s now cq.1 cq.2 = true)) := by
  induction L with
  | nil =>
    intro acc st hinv
    simp
  | cons a L ih =>
    intro acc st hinv
    simp only [List.foldl_cons]
    have hinv2 : ∀ p q : Int,
        squareAvailableNow (isSquareAvailable st now a.1 a.2).2 now p q =
          squareAvailableNow s now p q := by
      intro p q
      rw [isSquareAvailable_snd_avail, hinv]
    have hfst : (isSquareAvailable st now a.1 a.2).1 =
        squareAvailableNow s now a.1 a.2 := by
      rw [isSquareAvailable_fst, hinv]
    by_cases hv : isValidGridCoord gs a.1 a.2
    · rw [if_pos hv]
      by_cases hA : squareAvailableNow s now a.1 a.2 = true
      · simp only [hfst, hA, if_true]
        rw [ih (acc ++ [a]) _ hinv2]
        simp only [List.mem_append, List.mem_singleton, List.mem_cons]
        by_cases hcq : cq = a
        · subst hcq
          simp [hv, hA]
        · simp [hcq]
      · simp only [hfst, hA]
        rw [if_neg (by simp [hA]), ih acc _ hinv2]
        by_cases hcq : cq = a
        · subst hcq
          simp [hA]
        · simp [hcq, List.mem_cons]
    · rw [if_neg hv]
      rw [ih acc st hinv]
      by_cases hcq : cq = a
      · subst hcq
        simp [hv]
      · simp [hcq, List.mem_cons]

/-- C8: on every drag move the selection set is rebuilt from scratch
(independently of any previous selection) as exactly the in-bounds,
currently available cells of the axis-aligned box spanned by the drag start
and the current coordinate; an unavailable cell is never selected. -/
theorem drag_selection_exact (s : SMState) (now : Nat) (prev : List (Int × Int))
    (start cur c : Int × Int) :
    c ∈ (updateDragSelection s now prev start cur).1 ↔
      (min start.1 cur.1 ≤ c.1 ∧ c.1 ≤ max start.1 cur.1 ∧
       min start.2 cur.2 ≤ c.2 ∧ c.2 ≤ max start.2 cur.2 ∧
       isValidGridCoord s.gridSize c.1 c.2 = true ∧
       squareAvailableNow s now c.1 c.2 = true) := by
  unfold updateDragSelection
  rw [dragFold_mem s now s.gridSize c (boxCells start cur) [] s (fun a b => rfl)]
  unfold boxCells
  rw [mem_cellProd, mem_intRange, mem_intRange]
  simp only [List.not_mem_nil, false_or]
  constructor
  · rintro ⟨⟨⟨h1, h2⟩, h3, h4⟩, h5, h6⟩
    exact ⟨h1, by omega, h3, by omega, h5, h6⟩
  · rintro ⟨h1, h2, h3, h4, h5, h6⟩
    exact ⟨⟨⟨h1, by omega⟩, h3, by omega⟩, h5, h6⟩

end Shield
